import Mathlib

/-!
Shallow embedding of the `mcp_server` Rust crate (an MCP JSON-RPC server).

The embedding covers, faithfully to the source:
  * `src/src/types.rs`   — JSON-RPC request/response types, `McpResponse`
    and its `Serialize` impl and `into_json_rpc`, tool/resource domain
    types, `text_result` / `error_result`, `McpError` display.
  * `src/src/loader.rs`  — `parse_tools` and `parse_schema_meta`.
  * `src/crates/mcpserver/src/validate.rs` — `Tool::validate_arguments`.
  * `src/src/server.rs`  — `Server::handle` and its sub-handlers,
    `ServerBuilder::build`.

JSON values (`serde_json::Value`) are modelled by the inductive `Json`;
numbers are modelled as `Int` (no claim depends on non-integer numerics).
Rust `HashMap<String, _>` catalogs are modelled as association lists keyed
by name, looked up with `assocGet`; claims are stated conditionally on the
lookup result, so they do not depend on hash iteration order.  Async tool
and resource handlers are modelled as pure functions returning
`Except McpError _`, matching `Result<_, McpError>`.
-/

/-- Model of `serde_json::Value`.  Objects are field lists in insertion
order (serde maps cannot hold duplicate keys). -/
inductive Json where
  | null
  | bool (b : Bool)
  | num (n : Int)
  | str (s : String)
  | arr (xs : List Json)
  | obj (fields : List (String × Json))
deriving Repr, Inhabited

/-- Association-list lookup, modelling `HashMap::get` / object field
lookup (first match). -/
def assocGet {α : Type} : List (String × α) → String → Option α
  | [], _ => none
  | (k, v) :: rest, key => if k == key then some v else assocGet rest key

/-- The field list of an object; the empty list for any non-object.
Models `args.as_object().unwrap_or(&empty)` in `validate_arguments`. -/
def Json.objFields : Json → List (String × Json)
  | .obj fs => fs
  | _ => []

/-- `Map::contains_key` on a field list. -/
def containsKey (fs : List (String × Json)) (k : String) : Bool :=
  fs.any (fun p => p.1 == k)

/-- `Value::get(key)`: `Some` field value on objects, `None` otherwise. -/
def Json.get? : Json → String → Option Json
  | .obj fs, k => assocGet fs k
  | _, _ => none

/-- `Value::index` (`val[key]`): the field value, or `Null` when the key
is missing or the value is not an object. -/
def Json.index (v : Json) (k : String) : Json :=
  (v.get? k).getD .null

/-- `Value::is_null`. -/
def Json.isNull : Json → Bool
  | .null => true
  | _ => false

/-- `Value::as_str`. -/
def Json.asStr : Json → Option String
  | .str s => some s
  | _ => none

/-- `Value::as_array`. -/
def Json.asArray : Json → Option (List Json)
  | .arr xs => some xs
  | _ => none

/-- `Value::as_object` (as a field list). -/
def Json.asObject : Json → Option (List (String × Json))
  | .obj fs => some fs
  | _ => none

/-- Whether a serialized object carries a field named `k`. -/
def Json.hasField (j : Json) (k : String) : Bool :=
  match j with
  | .obj fs => fs.any (fun p => p.1 == k)
  | _ => false

-- ── types.rs: constants ──

def ERR_CODE_PARSE : Int := -32700
def ERR_CODE_INVALID_REQ : Int := -32600
def ERR_CODE_NO_METHOD : Int := -32601
def ERR_CODE_BAD_PARAMS : Int := -32602
def ERR_CODE_INTERNAL : Int := -32603

def PROTOCOL_VERSION : String := "2025-03-26"

-- ── types.rs: domain types ──

/-- `SchemaRequirementSet` — one `oneOf` requirement group. -/
structure SchemaRequirementSet where
  required : List String
deriving Repr, DecidableEq, Inhabited

/-- `SchemaMeta` — parsed schema metadata.  The Rust
`HashMap<String, Vec<String>>` of dependencies is modelled as an
association list (one entry per key, some iteration order). -/
structure SchemaMeta where
  required : List String
  one_of : List SchemaRequirementSet
  dependencies : List (String × List String)
deriving Repr, DecidableEq, Inhabited

/-- `Tool` — MCP tool definition. -/
structure Tool where
  name : String
  description : String
  input_schema : Json
  schema_meta : SchemaMeta
deriving Repr, Inhabited

/-- `Resource` — MCP resource definition. -/
structure Resource where
  name : String
  description : String
  uri : String
  mime_type : String
deriving Repr, DecidableEq, Inhabited

/-- `ContentBlock`. -/
structure ContentBlock where
  block_type : String
  text : Option String
deriving Repr, DecidableEq, Inhabited

/-- `ToolResult`. -/
structure ToolResult where
  content : List ContentBlock
  is_error : Bool
deriving Repr, DecidableEq, Inhabited

/-- `ResourceContent`. -/
structure ResourceContent where
  uri : String
  mime_type : Option String
  text : Option String
  blob : Option String
deriving Repr, DecidableEq, Inhabited

/-- `RpcError` — JSON-RPC 2.0 error object. -/
structure RpcError where
  code : Int
  message : String
  data : Option Json
deriving Repr, Inhabited

/-- `JsonRpcRequest`. -/
structure JsonRpcRequest where
  jsonrpc : String
  id : Option Json
  method : String
  params : Option Json
deriving Repr, Inhabited

/-- `McpError`; `toString` below is its `Display` impl (via `thiserror`). -/
inductive McpError where
  | validation (s : String)
  | toolError (s : String)
  | io (s : String)
  | json (s : String)
  | other (s : String)
deriving Repr, DecidableEq, Inhabited

/-- `Display for McpError` from the `#[error(...)]` attributes. -/
def McpError.toString : McpError → String
  | .validation s => "validation error: " ++ s
  | .toolError s => "tool error: " ++ s
  | .io s => "io error: " ++ s
  | .json s => "json error: " ++ s
  | .other s => s

/-- `ResponseKind` — the private enum inside `McpResponse`.  A cached
`Arc<RawValue>` is modelled by the `Json` value it holds (the raw string
is a serialization of exactly that value). -/
inductive ResponseKind where
  | cached (raw : Json)
  | result (value : Json)
  | error (e : RpcError)
  | notif
deriving Repr, Inhabited

/-- `McpResponse`. -/
structure McpResponse where
  id : Option Json
  kind : ResponseKind
deriving Repr, Inhabited

/-- `McpResponse::is_notification`. -/
def McpResponse.is_notification (r : McpResponse) : Bool :=
  match r.kind with
  | .notif => true
  | _ => false

-- internal constructors from types.rs

def McpResponse.cached (id : Option Json) (raw : Json) : McpResponse :=
  ⟨id, .cached raw⟩

def McpResponse.ok (id : Option Json) (result : Json) : McpResponse :=
  ⟨id, .result result⟩

def McpResponse.mkError (id : Option Json) (code : Int) (message : String) : McpResponse :=
  ⟨id, .error ⟨code, message, none⟩⟩

def McpResponse.notificationSentinel : McpResponse :=
  ⟨none, .notif⟩

/-- `JsonRpcResponse` — the structured response used by `into_json_rpc`. -/
structure JsonRpcResponse where
  jsonrpc : String
  id : Option Json
  result : Option Json
  error : Option RpcError
deriving Repr, Inhabited

/-- `McpResponse::into_json_rpc`.  For the cached case,
`serde_json::from_str(raw.get())` re-parses the raw string back to the
very value it was serialized from. -/
def McpResponse.into_json_rpc : McpResponse → JsonRpcResponse
  | ⟨id, .cached raw⟩ => ⟨"2.0", id, some raw, none⟩
  | ⟨id, .result v⟩ => ⟨"2.0", id, some v, none⟩
  | ⟨id, .error e⟩ => ⟨"2.0", id, none, some e⟩
  | ⟨_, .notif⟩ => ⟨"2.0", none, none, none⟩

/-- Serialization of `RpcError` (`data` skipped when `None`). -/
def rpcErrorToJson (e : RpcError) : Json :=
  .obj ([("code", .num e.code), ("message", .str e.message)] ++
    (match e.data with
     | some d => [("data", d)]
     | none => []))

/-- The `Serialize` impl for `McpResponse`: always `jsonrpc`, then `id`
when present, then exactly one of `result` / `error` — or neither for the
notification sentinel. -/
def McpResponse.serialize (r : McpResponse) : Json :=
  .obj (("jsonrpc", .str "2.0") ::
    ((match r.id with
      | some i => [("id", i)]
      | none => []) ++
     (match r.kind with
      | .cached raw => [("result", raw)]
      | .result v => [("result", v)]
      | .error e => [("error", rpcErrorToJson e)]
      | .notif => [])))

/-- Serialization of `ContentBlock`: `type`, then `text` unless `None`. -/
def contentBlockToJson (b : ContentBlock) : Json :=
  .obj ([("type", .str b.block_type)] ++
    (match b.text with
     | some t => [("text", .str t)]
     | none => []))

/-- Serialization of `ToolResult` (camelCase; `isError` skipped when
`false`). -/
def toolResultToJson (r : ToolResult) : Json :=
  .obj ([("content", .arr (r.content.map contentBlockToJson))] ++
    (if r.is_error then [("isError", .bool true)] else []))

/-- Serialization of `ResourceContent` (camelCase; `None` fields
skipped). -/
def resourceContentToJson (c : ResourceContent) : Json :=
  .obj ([("uri", .str c.uri)] ++
    (match c.mime_type with
     | some m => [("mimeType", .str m)]
     | none => []) ++
    (match c.text with
     | some t => [("text", .str t)]
     | none => []) ++
    (match c.blob with
     | some b => [("blob", .str b)]
     | none => []))

/-- Serialization of `Tool` (camelCase, `schema_meta` skipped). -/
def toolToJson (t : Tool) : Json :=
  .obj [("name", .str t.name), ("description", .str t.description),
        ("inputSchema", t.input_schema)]

/-- Serialization of `Resource` (camelCase). -/
def resourceToJson (r : Resource) : Json :=
  .obj [("name", .str r.name), ("description", .str r.description),
        ("uri", .str r.uri), ("mimeType", .str r.mime_type)]

/-- `text_result`. -/
def text_result (text : String) : ToolResult :=
  ⟨[⟨"text", some text⟩], false⟩

/-- `error_result`. -/
def error_result (text : String) : ToolResult :=
  ⟨[⟨"text", some text⟩], true⟩

-- ── validate.rs: Tool::validate_arguments ──

/-- First phase of `validate_arguments`: the `required` loop, returning
the error for the first missing field. -/
def checkRequired (obj : List (String × Json)) : List String → Except String Unit
  | [] => .ok ()
  | f :: rest =>
    if containsKey obj f then checkRequired obj rest
    else .error ("missing required field \"" ++ f ++ "\"")

/-- Second phase: the `oneOf` check. -/
def checkOneOf (obj : List (String × Json)) (one_of : List SchemaRequirementSet) :
    Except String Unit :=
  if one_of.isEmpty then .ok ()
  else if one_of.any (fun set => set.required.all (fun f => containsKey obj f)) then .ok ()
  else .error "arguments must satisfy oneOf requirements"

/-- Third phase: the `dependencies` loop, returning the error for the
first violated dependency in iteration order. -/
def checkDeps (obj : List (String × Json)) :
    List (String × List String) → Except String Unit
  | [] => .ok ()
  | (f, deps) :: rest =>
    if containsKey obj f then
      match deps.find? (fun d => !(containsKey obj d)) with
      | some d =>
        .error ("field \"" ++ f ++ "\" requires \"" ++ d ++ "\" to also be present")
      | none => checkDeps obj rest
    else checkDeps obj rest

/-- `Tool::validate_arguments`: a non-object argument value is treated as
the empty object; checks run required, then oneOf, then dependencies,
returning on the first failure. -/
def Tool.validate_arguments (t : Tool) (args : Json) : Except String Unit :=
  match checkRequired args.objFields t.schema_meta.required with
  | .error e => .error e
  | .ok _ =>
    match checkOneOf args.objFields t.schema_meta.one_of with
    | .error e => .error e
    | .ok _ => checkDeps args.objFields t.schema_meta.dependencies

-- ── loader.rs ──

/-- `parse_schema_meta`: extract `required`, `oneOf` and `dependencies`
from a JSON Schema value, silently skipping entries of the wrong shape. -/
def parse_schema_meta (schema : Json) : SchemaMeta :=
  let required :=
    match (schema.get? "required").bind Json.asArray with
    | some arr => arr.filterMap Json.asStr
    | none => []
  let one_of :=
    match (schema.get? "oneOf").bind Json.asArray with
    | some arr =>
      arr.filterMap (fun v =>
        ((v.get? "required").bind Json.asArray).map
          (fun reqs => SchemaRequirementSet.mk (reqs.filterMap Json.asStr)))
    | none => []
  let dependencies :=
    match (schema.get? "dependencies").bind Json.asObject with
    | some fs =>
      fs.filterMap (fun kv =>
        kv.2.asArray.map (fun arr => (kv.1, arr.filterMap Json.asStr)))
    | none => []
  ⟨required, one_of, dependencies⟩

/-- The per-element body of the `parse_tools` loop:
`val["name"].as_str().unwrap_or_default()`, likewise `description`, and
`input_schema := val["inputSchema"]` (which is `Null` when absent). -/
def parseToolVal (val : Json) : Tool :=
  let name := ((val.index "name").asStr).getD ""
  let description := ((val.index "description").asStr).getD ""
  let input_schema := val.index "inputSchema"
  ⟨name, description, input_schema, parse_schema_meta input_schema⟩

/-- `parse_tools` after `serde_json::from_slice` has produced the
`Vec<Value>`: the loop over the array elements.  It is total — it never
returns an error for any array of JSON values. -/
def parse_tools (vals : List Json) : List Tool :=
  vals.map parseToolVal

-- ── server.rs: params deserialization (serde derive semantics) ──

/-- `ToolCallParams` — `name: String`, `arguments: Value` with
`#[serde(default)]` (missing field becomes `Null`). -/
structure ToolCallParams where
  name : String
  arguments : Json
deriving Repr, Inhabited

/-- Deserialization of `ToolCallParams` from a JSON value: the value must
be an object with a string `name`; `arguments` takes any value and
defaults to `Null`; unknown fields are ignored.  Serde error texts are
abbreviated (no claim depends on them). -/
def parseToolCallParams (p : Json) : Except String ToolCallParams :=
  match p with
  | .obj fs =>
    match assocGet fs "name" with
    | some (.str n) => .ok ⟨n, (assocGet fs "arguments").getD .null⟩
    | some _ => .error "invalid type for field name"
    | none => .error "missing field name"
  | _ => .error "invalid type: expected object"

/-- `ResourceReadParams` — optional `name` and `uri`, defaulting to
`None`. -/
structure ResourceReadParams where
  name : Option String
  uri : Option String
deriving Repr, DecidableEq, Inhabited

/-- Deserialization of an `Option<String>` field value (`null` and a
missing field both give `None`). -/
def parseOptString : Option Json → Except String (Option String)
  | none => .ok none
  | some .null => .ok none
  | some (.str s) => .ok (some s)
  | some _ => .error "invalid type for optional string field"

/-- Deserialization of `ResourceReadParams` from a JSON value. -/
def parseResourceReadParams (p : Json) : Except String ResourceReadParams :=
  match p with
  | .obj fs =>
    match parseOptString (assocGet fs "name") with
    | .error e => .error e
    | .ok n =>
      match parseOptString (assocGet fs "uri") with
      | .error e => .error e
      | .ok u => .ok ⟨n, u⟩
  | _ => .error "invalid type: expected object"

-- ── server.rs: Server ──

/-- A tool handler: `async fn call(&self, args: Value, context: Value)
-> Result<ToolResult, McpError>` modelled as a pure function. -/
def ToolHandlerFn : Type := Json → Json → Except McpError ToolResult

/-- A resource handler: `async fn call(&self, uri: &str, context: Value)
-> Result<ResourceContent, McpError>` modelled as a pure function. -/
def ResourceHandlerFn : Type := String → Json → Except McpError ResourceContent

/-- The `Server` struct.  `HashMap` catalogs are association lists keyed
by name; the pre-serialized `Arc<RawValue>` caches are the `Json` values
they serialize. -/
structure Server where
  tools : List (String × Tool)
  resources : List (String × Resource)
  tool_handlers : List (String × ToolHandlerFn)
  resource_handlers : List (String × ResourceHandlerFn)
  initialize_result : Json
  tools_list_result : Json
  resources_list_result : Json

/-- `Server::handle_initialize` (the logging borrows `params` but the
response does not depend on it). -/
def Server.handle_initialize (s : Server) (id : Option Json) (_params : Option Json) :
    McpResponse :=
  McpResponse.cached id s.initialize_result

/-- `Server::handle_tools_list`. -/
def Server.handle_tools_list (s : Server) (id : Option Json) : McpResponse :=
  McpResponse.cached id s.tools_list_result

/-- `Server::handle_tools_call`. -/
def Server.handle_tools_call (s : Server) (id : Option Json) (params : Option Json)
    (context : Json) : McpResponse :=
  match params with
  | none => McpResponse.mkError id ERR_CODE_BAD_PARAMS "params required"
  | some p =>
    match parseToolCallParams p with
    | .error e => McpResponse.mkError id ERR_CODE_BAD_PARAMS ("invalid params: " ++ e)
    | .ok tp =>
      match assocGet s.tools tp.name with
      | none => McpResponse.mkError id ERR_CODE_NO_METHOD ("Unknown tool: " ++ tp.name)
      | some tool =>
        match tool.validate_arguments
            (if tp.arguments.isNull then Json.obj [] else tp.arguments) with
        | .error e => McpResponse.mkError id ERR_CODE_BAD_PARAMS e
        | .ok _ =>
          match assocGet s.tool_handlers tp.name with
          | none =>
            McpResponse.mkError id ERR_CODE_INTERNAL ("no handler for tool: " ++ tp.name)
          | some h =>
            McpResponse.ok id (toolResultToJson
              (match h (if tp.arguments.isNull then Json.obj [] else tp.arguments)
                  context with
               | .ok r => r
               | .error e => error_result e.toString))

/-- `Server::handle_resources_list`. -/
def Server.handle_resources_list (s : Server) (id : Option Json) : McpResponse :=
  McpResponse.cached id s.resources_list_result

/-- The `target` resolution in `handle_resources_read`: by name when
`name` is present (the map lookup), otherwise the linear scan over the
catalog values comparing `uri`. -/
def Server.resolve_resource (s : Server) (name : Option String) (uri : Option String) :
    Option Resource :=
  match name with
  | some n => assocGet s.resources n
  | none =>
    (s.resources.map Prod.snd).find? (fun r => r.uri == uri.getD "")

/-- `Server::handle_resources_read`. -/
def Server.handle_resources_read (s : Server) (id : Option Json) (params : Option Json)
    (context : Json) : McpResponse :=
  match params with
  | none => McpResponse.mkError id ERR_CODE_BAD_PARAMS "params required"
  | some p =>
    match parseResourceReadParams p with
    | .error e => McpResponse.mkError id ERR_CODE_BAD_PARAMS ("invalid params: " ++ e)
    | .ok rp =>
      if rp.name.isNone && rp.uri.isNone then
        McpResponse.mkError id ERR_CODE_BAD_PARAMS "either name or uri must be provided"
      else
        match s.resolve_resource rp.name rp.uri with
        | none => McpResponse.mkError id ERR_CODE_BAD_PARAMS "resource not found"
        | some target =>
          match assocGet s.resource_handlers target.name with
          | some h =>
            match h target.uri context with
            | .ok content =>
              McpResponse.ok id (.obj [("contents", .arr [resourceContentToJson content])])
            | .error e =>
              McpResponse.mkError id ERR_CODE_INTERNAL ("read resource: " ++ e.toString)
          | none =>
            McpResponse.ok id
              (.obj [("contents", .arr [.obj [("uri", .str target.uri),
                ("mimeType", .str target.mime_type), ("text", .str "")]])])

/-- `Server::handle` — the JSON-RPC method router.  The Rust `match` on
`req.method.as_str()` is an equality dispatch, modelled by an `if`
chain. -/
def Server.handle (s : Server) (req : JsonRpcRequest) (context : Json) : McpResponse :=
  if req.jsonrpc ≠ "2.0" then
    McpResponse.mkError req.id ERR_CODE_INVALID_REQ "jsonrpc must be \x272.0\x27"
  else if req.method = "initialize" then s.handle_initialize req.id req.params
  else if req.method = "ping" then McpResponse.ok req.id (.obj [])
  else if req.method = "notifications/initialized" then McpResponse.notificationSentinel
  else if req.method = "notifications/cancelled" then McpResponse.notificationSentinel
  else if req.method = "tools/list" then s.handle_tools_list req.id
  else if req.method = "tools/call" then s.handle_tools_call req.id req.params context
  else if req.method = "resources/list" then s.handle_resources_list req.id
  else if req.method = "resources/read" then s.handle_resources_read req.id req.params context
  else McpResponse.mkError req.id ERR_CODE_NO_METHOD ("Method not found: " ++ req.method)

-- ── server.rs: ServerBuilder ──

/-- `ServerBuilder`. -/
structure ServerBuilder where
  tools : List Tool
  resources : List Resource
  server_name : Option String
  server_version : Option String

/-- `ServerBuilder::default()`. -/
def ServerBuilder.default : ServerBuilder := ⟨[], [], none, none⟩

/-- `ServerBuilder::tools` — extends the tool list in order. -/
def ServerBuilder.addTools (b : ServerBuilder) (ts : List Tool) : ServerBuilder :=
  { b with tools := b.tools ++ ts }

/-- `ServerBuilder::resources`. -/
def ServerBuilder.addResources (b : ServerBuilder) (rs : List Resource) : ServerBuilder :=
  { b with resources := b.resources ++ rs }

/-- `ServerBuilder::server_info`. -/
def ServerBuilder.server_info (b : ServerBuilder) (name version : String) : ServerBuilder :=
  { b with server_name := some name, server_version := some version }

/-- `ServerBuilder::build`: pre-serializes the `initialize`, `tools/list`
and `resources/list` results from the builder vectors (in insertion
order), then moves tools and resources into name-keyed maps.  Handler
maps start empty. -/
def ServerBuilder.build (b : ServerBuilder) : Server :=
  let server_name := b.server_name.getD "mcpserver"
  let server_version := b.server_version.getD "1.0.0"
  let initialize_result : Json :=
    .obj [("protocolVersion", .str PROTOCOL_VERSION),
          ("capabilities", .obj [
            ("tools", .obj [("listChanged", .bool false)]),
            ("resources", .obj [("subscribe", .bool false), ("listChanged", .bool false)])]),
          ("serverInfo", .obj [("name", .str server_name),
            ("version", .str server_version)])]
  let tools_list_result : Json := .obj [("tools", .arr (b.tools.map toolToJson))]
  let resources_list_result : Json :=
    .obj [("resources", .arr (b.resources.map resourceToJson))]
  { tools := b.tools.map (fun t => (t.name, t))
    resources := b.resources.map (fun r => (r.name, r))
    tool_handlers := []
    resource_handlers := []
    initialize_result := initialize_result
    tools_list_result := tools_list_result
    resources_list_result := resources_list_result }

/-- `Server::handle_tool` — register a tool handler
(`HashMap::insert`, modelled by prepending so the new entry wins). -/
def Server.handle_tool (s : Server) (name : String) (h : ToolHandlerFn) : Server :=
  { s with tool_handlers := (name, h) :: s.tool_handlers.filter (fun p => p.1 ≠ name) }

/-- `Server::handle_resource` — register a resource handler. -/
def Server.handle_resource (s : Server) (name : String) (h : ResourceHandlerFn) : Server :=
  { s with resource_handlers :=
      (name, h) :: s.resource_handlers.filter (fun p => p.1 ≠ name) }

-- ── Specification-side definitions (for refinement statements) ──

/-- Spec-side: the first dependency violation in iteration order — the
pair `(F, D)` with `F` present, `D` its first missing dependency, taken
from the first such entry of the dependency list. -/
def firstDepViolation (obj : List (String × Json)) :
    List (String × List String) → Option (String × String)
  | [] => none
  | (f, deps) :: rest =>
    if containsKey obj f then
      match deps.find? (fun d => !(containsKey obj d)) with
      | some d => some (f, d)
      | none => firstDepViolation obj rest
    else firstDepViolation obj rest

-- ── Helper lemmas ──

theorem is_notification_ok (id : Option Json) (v : Json) :
    (McpResponse.ok id v).is_notification = false := rfl

theorem is_notification_mkError (id : Option Json) (c : Int) (m : String) :
    (McpResponse.mkError id c m).is_notification = false := rfl

theorem is_notification_cached (id : Option Json) (raw : Json) :
    (McpResponse.cached id raw).is_notification = false := rfl

theorem is_notification_sentinel :
    McpResponse.notificationSentinel.is_notification = true := rfl

theorem objFields_of_asObject_none {v : Json} (h : v.asObject = none) :
    v.objFields = [] := by
  cases v <;> simp_all [Json.asObject, Json.objFields]

theorem checkRequired_ok_iff (obj : List (String × Json)) (req : List String) :
    checkRequired obj req = .ok () ↔ req.all (fun f => containsKey obj f) = true := by
  induction req with
  | nil => simp [checkRequired]
  | cons f rest ih =>
    by_cases h : containsKey obj f = true <;>
      simp [checkRequired, h, ih]

theorem checkRequired_first_missing (obj : List (String × Json)) (req : List String)
    (f : String) (h : req.find? (fun g => !(containsKey obj g)) = some f) :
    checkRequired obj req = .error ("missing required field \"" ++ f ++ "\"") := by
  induction req with
  | nil => simp at h
  | cons g rest ih =>
    by_cases hg : containsKey obj g = true
    · rw [List.find?_cons] at h
      simp [hg] at h
      simp [checkRequired, hg]
      exact ih h
    · rw [List.find?_cons] at h
      simp [hg] at h
      simp [checkRequired, hg, ← h]

theorem checkOneOf_ok_iff (obj : List (String × Json)) (os : List SchemaRequirementSet) :
    checkOneOf obj os = .ok () ↔
      (os = [] ∨ os.any (fun g => g.required.all (fun f => containsKey obj f)) = true) := by
  unfold checkOneOf
  by_cases he : os.isEmpty = true
  · simp [he, List.isEmpty_iff.mp he]
  · by_cases ha : os.any (fun g => g.required.all (fun f => containsKey obj f)) = true
    · simp [he, ha]
    · rw [List.isEmpty_iff] at he
      simp [he, ha, List.isEmpty_iff]

theorem checkOneOf_fail (obj : List (String × Json)) (os : List SchemaRequirementSet)
    (hne : os ≠ [])
    (hfail : os.any (fun g => g.required.all (fun f => containsKey obj f)) = false) :
    checkOneOf obj os = .error "arguments must satisfy oneOf requirements" := by
  unfold checkOneOf
  simp [List.isEmpty_iff, hne, hfail]

theorem checkDeps_ok_iff (obj : List (String × Json)) (deps : List (String × List String)) :
    checkDeps obj deps = .ok () ↔
      (∀ fd ∈ deps, containsKey obj fd.1 = true →
        fd.2.all (fun d => containsKey obj d) = true) := by
  induction deps with
  | nil => simp [checkDeps]
  | cons fd rest ih =>
    obtain ⟨f, ds⟩ := fd
    by_cases hf : containsKey obj f = true
    · cases hfind : ds.find? (fun d => !(containsKey obj d)) with
      | some d =>
        have hd := List.find?_some hfind
        have hmem := List.mem_of_find?_eq_some hfind
        simp at hd
        constructor
        · intro hok
          simp [checkDeps, hf, hfind] at hok
        · intro hall
          have h1 := hall (f, ds) (by simp) hf
          rw [List.all_eq_true] at h1
          have h2 := h1 d hmem
          simp [hd] at h2
      | none =>
        have hall : ds.all (fun d => containsKey obj d) = true := by
          rw [List.all_eq_true]
          intro d hd
          have := List.find?_eq_none.mp hfind d hd
          simpa using this
        simp only [checkDeps, hf, if_true, hfind]
        rw [ih]
        constructor
        · intro h fd hmem hkey
          rcases List.mem_cons.mp hmem with heq | hmem2
          · subst heq; exact hall
          · exact h fd hmem2 hkey
        · intro h fd hmem hkey
          exact h fd (List.mem_cons_of_mem _ hmem) hkey
    · simp only [checkDeps, hf, Bool.false_eq_true, if_false]
      rw [ih]
      constructor
      · intro h fd hmem hkey
        rcases List.mem_cons.mp hmem with heq | hmem2
        · subst heq; exact absurd hkey hf
        · exact h fd hmem2 hkey
      · intro h fd hmem hkey
        exact h fd (List.mem_cons_of_mem _ hmem) hkey

theorem checkDeps_first_violation (obj : List (String × Json))
    (deps : List (String × List String)) (f d : String)
    (h : firstDepViolation obj deps = some (f, d)) :
    checkDeps obj deps =
      .error ("field \"" ++ f ++ "\" requires \"" ++ d ++ "\" to also be present") := by
  induction deps with
  | nil => simp [firstDepViolation] at h
  | cons fd rest ih =>
    obtain ⟨g, ds⟩ := fd
    by_cases hg : containsKey obj g = true
    · cases hfind : ds.find? (fun x => !(containsKey obj x)) with
      | some d0 =>
        simp [firstDepViolation, hg, hfind] at h
        obtain ⟨hgf, hd0⟩ := h
        subst hgf
        subst hd0
        simp [checkDeps, hg, hfind]
      | none =>
        simp only [firstDepViolation, hg, if_true, hfind] at h
        simp only [checkDeps, hg, if_true, hfind]
        exact ih h
    · rw [show firstDepViolation obj ((g, ds) :: rest) = firstDepViolation obj rest by
        simp [firstDepViolation, hg]] at h
      rw [show checkDeps obj ((g, ds) :: rest) = checkDeps obj rest by
        simp [checkDeps, hg]]
      exact ih h

-- ── Concrete fixtures (mirroring the crate's own test setup) ──

/-- The `echo` tool from the crate's test JSON, through the loader. -/
def echoTool : Tool :=
  parseToolVal (.obj [("name", .str "echo"), ("description", .str "echoes"),
    ("inputSchema", .obj [("type", .str "object"),
      ("properties", .obj [("msg", .obj [("type", .str "string")])]),
      ("required", .arr [.str "msg"])])])

/-- A tool with no schema constraints, used with a failing handler. -/
def failTool : Tool :=
  parseToolVal (.obj [("name", .str "fail"), ("description", .str "always fails"),
    ("inputSchema", .obj [("type", .str "object")])])

def testResource : Resource :=
  ⟨"test", "test resource", "file:///test.csv", "text/csv"⟩

def echoHandler : ToolHandlerFn := fun args _ =>
  .ok (text_result ("echo: " ++ (((args.get? "msg").bind Json.asStr).getD "no msg")))

def failHandler : ToolHandlerFn := fun _ _ =>
  .error (.other "boom")

def testServer : Server :=
  ((((ServerBuilder.default.addTools [echoTool, failTool]).addResources
      [testResource]).server_info "test-server" "0.1.0").build.handle_tool
    "echo" echoHandler).handle_tool "fail" failHandler

def emptyServer : Server := ServerBuilder.default.build

-- ── Claims ──

/-- C2: `validate_arguments` accepts exactly when every required field is
present, some `oneOf` group is fully present (or `oneOf` is empty), and
every dependency of a present field is present; checks run in the order
required, oneOf, dependencies, and the first failing check determines the
message. -/
theorem C2_validate_arguments_spec (t : Tool) (args : Json) :
    (t.validate_arguments args = .ok () ↔
      (t.schema_meta.required.all (fun f => containsKey args.objFields f) = true ∧
       (t.schema_meta.one_of = [] ∨
        t.schema_meta.one_of.any
          (fun g => g.required.all (fun f => containsKey args.objFields f)) = true) ∧
       (∀ fd ∈ t.schema_meta.dependencies, containsKey args.objFields fd.1 = true →
         fd.2.all (fun d => containsKey args.objFields d) = true))) ∧
    (∀ f, t.schema_meta.required.find? (fun g => !(containsKey args.objFields g)) = some f →
      t.validate_arguments args = .error ("missing required field \"" ++ f ++ "\"")) ∧
    (t.schema_meta.required.all (fun f => containsKey args.objFields f) = true →
     t.schema_meta.one_of ≠ [] →
     t.schema_meta.one_of.any
       (fun g => g.required.all (fun f => containsKey args.objFields f)) = false →
     t.validate_arguments args = .error "arguments must satisfy oneOf requirements") ∧
    (t.schema_meta.required.all (fun f => containsKey args.objFields f) = true →
     (t.schema_meta.one_of = [] ∨
      t.schema_meta.one_of.any
        (fun g => g.required.all (fun f => containsKey args.objFields f)) = true) →
     ∀ f d, firstDepViolation args.objFields t.schema_meta.dependencies = some (f, d) →
       t.validate_arguments args =
         .error ("field \"" ++ f ++ "\" requires \"" ++ d ++ "\" to also be present")) := by
  unfold Tool.validate_arguments
  refine ⟨?_, ?_, ?_, ?_⟩
  · cases hr : checkRequired args.objFields t.schema_meta.required with
    | error e =>
      simp only [hr]
      constructor
      · intro h; cases h
      · rintro ⟨hall, -, -⟩
        rw [(checkRequired_ok_iff args.objFields t.schema_meta.required).mpr hall] at hr
        cases hr
    | ok u =>
      cases u
      have hall := (checkRequired_ok_iff args.objFields t.schema_meta.required).mp hr
      cases ho : checkOneOf args.objFields t.schema_meta.one_of with
      | error e =>
        simp only [hr, ho]
        constructor
        · intro h; cases h
        · rintro ⟨-, hone, -⟩
          rw [(checkOneOf_ok_iff args.objFields t.schema_meta.one_of).mpr hone] at ho
          cases ho
      | ok u =>
        cases u
        have hone := (checkOneOf_ok_iff args.objFields t.schema_meta.one_of).mp ho
        simp only [hr, ho]
        rw [checkDeps_ok_iff]
        exact ⟨fun h => ⟨hall, hone, h⟩, fun h => h.2.2⟩
  · intro f hf
    rw [checkRequired_first_missing args.objFields t.schema_meta.required f hf]
  · intro hall hne hfail
    rw [(checkRequired_ok_iff args.objFields t.schema_meta.required).mpr hall,
      checkOneOf_fail args.objFields t.schema_meta.one_of hne hfail]
  · intro hall hone f d hviol
    rw [(checkRequired_ok_iff args.objFields t.schema_meta.required).mpr hall,
      (checkOneOf_ok_iff args.objFields t.schema_meta.one_of).mpr hone,
      checkDeps_first_violation args.objFields t.schema_meta.dependencies f d hviol]

/-- C2 witness: concrete instantiations of each clause of the
specification theorem, on the crate's own test tools. -/
theorem C2_validate_arguments_spec_witness :
    echoTool.validate_arguments (Json.obj [("msg", Json.str "hello")]) = .ok () ∧
    echoTool.validate_arguments (Json.obj []) =
      .error "missing required field \"msg\"" :=
  ⟨(C2_validate_arguments_spec echoTool (Json.obj [("msg", Json.str "hello")])).1.mpr
      ⟨by rfl, by left; rfl, by intro fd hfd; cases hfd⟩,
   (C2_validate_arguments_spec echoTool (Json.obj [])).2.1 "msg" (by rfl)⟩

/-- Shape of any `McpResponse` under both serializers: `jsonrpc` always
present with value `"2.0"`; the notification sentinel emits neither
`result` nor `error`; every other response emits exactly one of them. -/
theorem mcpResponse_shape (r : McpResponse) :
    r.serialize.get? "jsonrpc" = some (.str "2.0") ∧
    r.into_json_rpc.jsonrpc = "2.0" ∧
    (if r.is_notification then
      r.serialize.hasField "result" = false ∧ r.serialize.hasField "error" = false ∧
      r.into_json_rpc.result = none ∧ r.into_json_rpc.error = none
    else
      (r.serialize.hasField "result" = true ∧ r.serialize.hasField "error" = false ∧
        r.into_json_rpc.result.isSome = true ∧ r.into_json_rpc.error = none) ∨
      (r.serialize.hasField "error" = true ∧ r.serialize.hasField "result" = false ∧
        r.into_json_rpc.error.isSome = true ∧ r.into_json_rpc.result = none)) := by
  obtain ⟨id, kind⟩ := r
  cases kind <;> cases id <;>
    simp [McpResponse.serialize, McpResponse.into_json_rpc, McpResponse.is_notification,
      Json.hasField, Json.get?, assocGet]

/-- C1: every response produced by `Server::handle`, under either
serialization (`Serialize` or `into_json_rpc`), is either the notification
sentinel (emitting neither `result` nor `error`) or carries exactly one of
`result` and `error`; the serialized form always carries
`jsonrpc = "2.0"`. -/
theorem C1_response_exclusive_result_or_error (s : Server) (req : JsonRpcRequest)
    (ctx : Json) :
    (s.handle req ctx).serialize.get? "jsonrpc" = some (.str "2.0") ∧
    (s.handle req ctx).into_json_rpc.jsonrpc = "2.0" ∧
    (if (s.handle req ctx).is_notification then
      (s.handle req ctx).serialize.hasField "result" = false ∧
      (s.handle req ctx).serialize.hasField "error" = false ∧
      (s.handle req ctx).into_json_rpc.result = none ∧
      (s.handle req ctx).into_json_rpc.error = none
    else
      ((s.handle req ctx).serialize.hasField "result" = true ∧
        (s.handle req ctx).serialize.hasField "error" = false ∧
        (s.handle req ctx).into_json_rpc.result.isSome = true ∧
        (s.handle req ctx).into_json_rpc.error = none) ∨
      ((s.handle req ctx).serialize.hasField "error" = true ∧
        (s.handle req ctx).serialize.hasField "result" = false ∧
        (s.handle req ctx).into_json_rpc.error.isSome = true ∧
        (s.handle req ctx).into_json_rpc.result = none)) :=
  mcpResponse_shape (s.handle req ctx)

/-- `handle_tools_call` never returns the notification sentinel. -/
theorem handle_tools_call_not_sentinel (s : Server) (id : Option Json)
    (params : Option Json) (ctx : Json) :
    (s.handle_tools_call id params ctx).is_notification = false := by
  unfold Server.handle_tools_call
  repeat' split
  all_goals rfl

/-- `handle_resources_read` never returns the notification sentinel. -/
theorem handle_resources_read_not_sentinel (s : Server) (id : Option Json)
    (params : Option Json) (ctx : Json) :
    (s.handle_resources_read id params ctx).is_notification = false := by
  unfold Server.handle_resources_read
  repeat' split
  all_goals rfl

/-- C3: when a registered handler returns an implementation-level error
`Err(e)`, `handle` returns a successful RPC result whose payload is a
`ToolResult` with `isError = true` and a single `text` content block
carrying the error's display message. -/
theorem C3_handler_error_becomes_is_error_result (s : Server) (id : Option Json)
    (p ctx argsv : Json) (name : String) (tool : Tool) (h : ToolHandlerFn) (e : McpError)
    (hparse : parseToolCallParams p = .ok ⟨name, argsv⟩)
    (htool : assocGet s.tools name = some tool)
    (hval : tool.validate_arguments (if argsv.isNull then Json.obj [] else argsv) = .ok ())
    (hh : assocGet s.tool_handlers name = some h)
    (hcall : h (if argsv.isNull then Json.obj [] else argsv) ctx = .error e) :
    s.handle ⟨"2.0", id, "tools/call", some p⟩ ctx =
      McpResponse.ok id
        (.obj [("content", .arr [.obj [("type", .str "text"),
          ("text", .str e.toString)]]), ("isError", .bool true)]) ∧
    (s.handle ⟨"2.0", id, "tools/call", some p⟩ ctx).into_json_rpc.error = none := by
  have hmain : s.handle ⟨"2.0", id, "tools/call", some p⟩ ctx =
      McpResponse.ok id
        (.obj [("content", .arr [.obj [("type", .str "text"),
          ("text", .str e.toString)]]), ("isError", .bool true)]) := by
    simp [Server.handle, Server.handle_tools_call, hparse, htool, hval, hh, hcall,
      toolResultToJson, error_result, contentBlockToJson]
  exact ⟨hmain, by rw [hmain]; rfl⟩

/-- C3 witness: on the test server, the `fail` tool's handler error
`boom` comes back as a successful result with `isError = true`. -/
theorem C3_handler_error_becomes_is_error_result_witness :
    testServer.handle
        ⟨"2.0", some (.num 7), "tools/call",
          some (.obj [("name", .str "fail"), ("arguments", .obj [])])⟩ Json.null =
      McpResponse.ok (some (.num 7))
        (.obj [("content", .arr [.obj [("type", .str "text"),
          ("text", .str "boom")]]), ("isError", .bool true)]) :=
  (C3_handler_error_becomes_is_error_result testServer (some (.num 7))
    (.obj [("name", .str "fail"), ("arguments", .obj [])]) Json.null (.obj [])
    "fail" failTool failHandler (.other "boom") rfl rfl rfl rfl rfl).1

/-- C4: under jsonrpc `"2.0"`, the two `notifications/*` methods return
the notification sentinel whose id is absent, even when the request
carried an id. -/
theorem C4_notifications_return_sentinel (s : Server) (req : JsonRpcRequest) (ctx : Json)
    (hj : req.jsonrpc = "2.0")
    (hm : req.method = "notifications/initialized" ∨
      req.method = "notifications/cancelled") :
    s.handle req ctx = McpResponse.notificationSentinel ∧
    (s.handle req ctx).id = none := by
  have hmain : s.handle req ctx = McpResponse.notificationSentinel := by
    rcases hm with h | h <;> simp [Server.handle, hj, h]
  exact ⟨hmain, by rw [hmain]; rfl⟩

/-- C4 witness: `notifications/initialized` with an id still gets the
sentinel. -/
theorem C4_notifications_return_sentinel_witness :
    testServer.handle ⟨"2.0", some (.num 3), "notifications/initialized", none⟩
        Json.null = McpResponse.notificationSentinel :=
  (C4_notifications_return_sentinel testServer
    ⟨"2.0", some (.num 3), "notifications/initialized", none⟩ Json.null rfl
    (Or.inl rfl)).1

/-- C5 counterexample: a `ping` request with absent id is answered with a
result body, not the notification sentinel — so an id-less request does
not, in general, elicit the sentinel. -/
theorem C5_counterexample :
    (emptyServer.handle ⟨"2.0", none, "ping", none⟩ Json.null).is_notification
        = false ∧
    (emptyServer.handle ⟨"2.0", none, "ping", none⟩ Json.null).into_json_rpc.result
        = some (.obj []) :=
  ⟨rfl, rfl⟩

/-- C5 amended: `handle` returns the notification sentinel exactly for
requests with jsonrpc `"2.0"` and method `notifications/initialized` or
`notifications/cancelled` — the absence of an id alone does not make a
request a notification. -/
theorem C5_sentinel_iff_notifications_method (s : Server) (req : JsonRpcRequest)
    (ctx : Json) :
    (s.handle req ctx).is_notification =
      (req.jsonrpc == "2.0" &&
        (req.method == "notifications/initialized" ||
         req.method == "notifications/cancelled")) := by
  unfold Server.handle
  split_ifs with h1 h2 h3 h4 h5 h6 h7 h8 h9 <;>
    simp_all [Server.handle_initialize, Server.handle_tools_list,
      Server.handle_resources_list, handle_tools_call_not_sentinel,
      handle_resources_read_not_sentinel, is_notification_ok,
      is_notification_mkError, is_notification_cached, is_notification_sentinel]

/-- C6: a `tools/call` naming an unknown tool yields the method-not-found
error (`-32601`, not `-32602`) with message `Unknown tool: <name>` and the
request id preserved. -/
theorem C6_unknown_tool_is_method_not_found (s : Server) (id : Option Json)
    (p ctx argsv : Json) (name : String)
    (hparse : parseToolCallParams p = .ok ⟨name, argsv⟩)
    (hlook : assocGet s.tools name = none) :
    s.handle ⟨"2.0", id, "tools/call", some p⟩ ctx =
      McpResponse.mkError id ERR_CODE_NO_METHOD ("Unknown tool: " ++ name) ∧
    ERR_CODE_NO_METHOD = -32601 ∧ ERR_CODE_NO_METHOD ≠ ERR_CODE_BAD_PARAMS ∧
    (s.handle ⟨"2.0", id, "tools/call", some p⟩ ctx).id = id := by
  have hmain : s.handle ⟨"2.0", id, "tools/call", some p⟩ ctx =
      McpResponse.mkError id ERR_CODE_NO_METHOD ("Unknown tool: " ++ name) := by
    simp [Server.handle, Server.handle_tools_call, hparse, hlook]
  refine ⟨hmain, rfl, by decide, by rw [hmain]; rfl⟩

/-- C6 witness: calling the unregistered tool `nonexistent` on the test
server. -/
theorem C6_unknown_tool_is_method_not_found_witness :
    testServer.handle
        ⟨"2.0", some (.num 1), "tools/call",
          some (.obj [("name", .str "nonexistent"), ("arguments", .obj [])])⟩
        Json.null =
      McpResponse.mkError (some (.num 1)) ERR_CODE_NO_METHOD
        "Unknown tool: nonexistent" :=
  (C6_unknown_tool_is_method_not_found testServer (some (.num 1))
    (.obj [("name", .str "nonexistent"), ("arguments", .obj [])]) Json.null
    (.obj []) "nonexistent" rfl rfl).1

/-- C7 counterexample: on a tool object with no `inputSchema` field, the
loader stores JSON `null` as the input schema, not the empty JSON object
(`val["inputSchema"]` indexing yields `Null` for a missing key). -/
theorem C7_counterexample :
    parse_tools [Json.obj []] =
      [{ name := "", description := "", input_schema := Json.null,
         schema_meta := ⟨[], [], []⟩ }] ∧
    Json.null ≠ Json.obj [] :=
  ⟨rfl, fun h => Json.noConfusion h⟩

/-- C7 amended: `parse_tools` always succeeds on a JSON array (one tool
per element); per element, a missing `name` or `description` becomes the
empty string, and a missing `inputSchema` becomes JSON `null`. -/
theorem C7_parse_tools_lenient (vals : List Json) (val : Json) :
    (parse_tools vals).length = vals.length ∧
    parse_tools vals = vals.map parseToolVal ∧
    ((val.index "name").asStr = none → (parseToolVal val).name = "") ∧
    ((val.index "description").asStr = none → (parseToolVal val).description = "") ∧
    (val.get? "inputSchema" = none → (parseToolVal val).input_schema = Json.null) := by
  refine ⟨List.length_map _ _, rfl, ?_, ?_, ?_⟩
  · intro h
    simp [parseToolVal, h]
  · intro h
    simp [parseToolVal, h]
  · intro h
    simp [parseToolVal, Json.index, h]

/-- C7 witness: the empty tool object — empty name and description, and a
`null` input schema. -/
theorem C7_parse_tools_lenient_witness :
    (parseToolVal (Json.obj [])).name = "" ∧
    (parseToolVal (Json.obj [])).description = "" ∧
    (parseToolVal (Json.obj [])).input_schema = Json.null :=
  ⟨(C7_parse_tools_lenient [] (Json.obj [])).2.2.1 rfl,
   (C7_parse_tools_lenient [] (Json.obj [])).2.2.2.1 rfl,
   (C7_parse_tools_lenient [] (Json.obj [])).2.2.2.2 rfl⟩

/-- C8: for a server built from N tool definitions, the cached
`tools/list` response carries exactly the N entries in builder insertion
order, with the request id preserved and no error — even though dispatch
uses the name-keyed map. -/
theorem C8_tools_list_preserves_builder_order (tools : List Tool)
    (resources : List Resource) (nm vr : Option String) (id : Option Json)
    (ctx : Json) :
    ((ServerBuilder.mk tools resources nm vr).build.handle
        ⟨"2.0", id, "tools/list", none⟩ ctx).into_json_rpc.result =
      some (.obj [("tools", .arr (tools.map toolToJson))]) ∧
    (tools.map toolToJson).length = tools.length ∧
    ((ServerBuilder.mk tools resources nm vr).build.handle
        ⟨"2.0", id, "tools/list", none⟩ ctx).into_json_rpc.error = none ∧
    ((ServerBuilder.mk tools resources nm vr).build.handle
        ⟨"2.0", id, "tools/list", none⟩ ctx).id = id := by
  refine ⟨?_, List.length_map _ _, ?_, ?_⟩ <;>
    simp [Server.handle, Server.handle_tools_list, ServerBuilder.build,
      McpResponse.cached, McpResponse.into_json_rpc]

/-- C9: a non-object, non-null `arguments` value is validated as if it
were the empty object, but the handler still receives the original value
unchanged. -/
theorem C9_non_object_args_validated_as_empty (s : Server) (id : Option Json)
    (p ctx argsv : Json) (name : String) (tool : Tool) (h : ToolHandlerFn)
    (hparse : parseToolCallParams p = .ok ⟨name, argsv⟩)
    (hnotobj : argsv.asObject = none)
    (hnotnull : argsv.isNull = false)
    (htool : assocGet s.tools name = some tool)
    (hh : assocGet s.tool_handlers name = some h) :
    tool.validate_arguments argsv = tool.validate_arguments (Json.obj []) ∧
    (tool.validate_arguments argsv = .ok () →
      s.handle ⟨"2.0", id, "tools/call", some p⟩ ctx =
        McpResponse.ok id (toolResultToJson
          (match h argsv ctx with
           | .ok r => r
           | .error e => error_result e.toString))) := by
  have hfields : argsv.objFields = [] := objFields_of_asObject_none hnotobj
  constructor
  · unfold Tool.validate_arguments
    rw [hfields]
    rfl
  · intro hval
    simp [Server.handle, Server.handle_tools_call, hparse, hnotnull, htool, hval, hh]

/-- C9 witness: calling `fail` with `arguments: 5` — validation passes
(treating `5` as `{}`) and the handler receives the number `5`. -/
theorem C9_non_object_args_validated_as_empty_witness :
    failTool.validate_arguments (Json.num 5) =
      failTool.validate_arguments (Json.obj []) ∧
    testServer.handle
        ⟨"2.0", some (.num 1), "tools/call",
          some (.obj [("name", .str "fail"), ("arguments", .num 5)])⟩ Json.null =
      McpResponse.ok (some (.num 1))
        (toolResultToJson (error_result "boom")) :=
  ⟨(C9_non_object_args_validated_as_empty testServer (some (.num 1))
      (.obj [("name", .str "fail"), ("arguments", .num 5)]) Json.null (.num 5)
      "fail" failTool failHandler rfl rfl rfl rfl rfl).1,
   (C9_non_object_args_validated_as_empty testServer (some (.num 1))
      (.obj [("name", .str "fail"), ("arguments", .num 5)]) Json.null (.num 5)
      "fail" failTool failHandler rfl rfl rfl rfl rfl).2 rfl⟩

/-- C10: a `resources/read` whose params carry a `name` resolves by name
only: an unknown name yields the invalid-params error `resource not
found` (code `-32602`) even if the supplied `uri` matches a catalog
entry; resolution with a present name is independent of the uri. -/
theorem C10_read_by_name_ignores_uri (s : Server) (id : Option Json) (p ctx : Json)
    (name : String) (uriOpt : Option String)
    (hparse : parseResourceReadParams p = .ok ⟨some name, uriOpt⟩)
    (hlook : assocGet s.resources name = none) :
    s.handle ⟨"2.0", id, "resources/read", some p⟩ ctx =
      McpResponse.mkError id ERR_CODE_BAD_PARAMS "resource not found" ∧
    ERR_CODE_BAD_PARAMS = -32602 ∧
    (∀ u1 u2 : Option String,
      s.resolve_resource (some name) u1 = s.resolve_resource (some name) u2) := by
  refine ⟨?_, rfl, fun u1 u2 => rfl⟩
  simp [Server.handle, Server.handle_resources_read, hparse,
    Server.resolve_resource, hlook]

/-- C10 witness: reading name `nope` with the catalog uri
`file:///test.csv` supplied still fails with `resource not found`. -/
theorem C10_read_by_name_ignores_uri_witness :
    testServer.handle
        ⟨"2.0", some (.num 1), "resources/read",
          some (.obj [("name", .str "nope"), ("uri", .str "file:///test.csv")])⟩
        Json.null =
      McpResponse.mkError (some (.num 1)) ERR_CODE_BAD_PARAMS "resource not found" :=
  (C10_read_by_name_ignores_uri testServer (some (.num 1))
    (.obj [("name", .str "nope"), ("uri", .str "file:///test.csv")]) Json.null
    "nope" (some "file:///test.csv") rfl rfl).1
